import Mathlib

/-!
Shallow embedding of the meeting-recorder web app (src/app.py, src/config.py).

The app is a single-script UI: a Start/Stop pair of button handlers drives
audio capture into a pre-allocated one-hour buffer (`sd.rec(int(44100*3600))`),
the Stop handler truncates the buffer to the elapsed time, saves it to a
timestamped wav file, transcribes it, asks a remote model for a JSON-shaped
analysis, parses the reply with Python `eval`, and a dashboard section renders
the parsed analysis (summary, decisions, action-item table, mermaid diagram
with a fallback).  Session state is a dictionary of flags and cached values.

Modeling conventions:
* wall-clock times, elapsed durations and audio samples are rationals;
* Python lists of samples are `List ℚ`; slicing `xs[:n]` is `List.take`
  (total, clamping — matching Python semantics for nonnegative `n`);
* Python strings are `String`, compared by code points as Python does;
  `str.lower`, `str.strip`, `str.startswith`, `in` (substring) and
  `str.endswith` are modeled by executable functions below;
* `datetime.now().strftime("%Y%m%d_%H%M%S")` is modeled by zero-padded
  decimal rendering of the timestamp fields (microseconds are dropped,
  exactly as the format string drops them);
* the Streamlit widgets are modeled by the data handed to them
  (notices emitted, file written, dashboard fields).
-/

/-- Single-quote character (code point 39). -/
def squote : Char := Char.ofNat 39

/-- Opening curly-bracket character (code point 123). -/
def lbrace : Char := Char.ofNat 123

/-- Closing curly-bracket character (code point 125). -/
def rbrace : Char := Char.ofNat 125

/-- Backslash character (code point 92). -/
def backslashC : Char := Char.ofNat 92

/-- ASCII whitespace recognizer used by the `str.strip` model. -/
def isWsChar (c : Char) : Bool :=
  c = ' ' || c = '\n' || c = '\t' || c = '\r'

/-- Model of Python `str.lower` (code-point-wise lowering). -/
def pyLower (s : String) : String :=
  String.mk (s.data.map Char.toLower)

/-- Model of Python `str.startswith`. -/
def strStartsWith (s p : String) : Bool :=
  decide (p.data <+: s.data)

/-- Model of Python substring membership `sub in s`. -/
def strContains (s sub : String) : Bool :=
  decide (sub.data <:+: s.data)

/-- Model of Python `str.endswith`. -/
def strEndsWith (s suf : String) : Bool :=
  decide (suf.data <:+ s.data)

/-- Model of Python `str.strip`: drop whitespace from both ends. -/
def pyStrip (s : String) : String :=
  String.mk (((s.data.dropWhile isWsChar).reverse.dropWhile isWsChar).reverse)

/-- Code-point lexicographic "less than" on character lists: the order Python
uses when sorting a list of strings. -/
def lexLtB : List Char → List Char → Bool
  | [], [] => false
  | [], _ :: _ => true
  | _ :: _, [] => false
  | a :: as, b :: bs =>
    if a.toNat < b.toNat then true
    else if b.toNat < a.toNat then false
    else lexLtB as bs

/-- Python string comparison `s < t` (code-point lexicographic). -/
def pyStrLt (s t : String) : Bool :=
  lexLtB s.data t.data

/-- The ordering used to model `list.sort(reverse=True)`: `a` may precede `b`
in the descending result exactly when `a` is not smaller than `b`. -/
def strGe (a b : String) : Prop :=
  pyStrLt a b = false

instance : DecidableRel strGe := fun a b =>
  inferInstanceAs (Decidable (pyStrLt a b = false))

/-- A wall-clock instant as `datetime.now()` sees it: calendar fields plus
microseconds.  `strftime("%Y%m%d_%H%M%S")` drops the microseconds. -/
structure DateTime where
  year : Nat
  month : Nat
  day : Nat
  hour : Nat
  minute : Nat
  second : Nat
  micro : Nat
deriving DecidableEq

/-- Field ranges of a real `datetime` value (4-digit year). -/
def validDT (t : DateTime) : Prop :=
  1000 ≤ t.year ∧ t.year ≤ 9999 ∧ 1 ≤ t.month ∧ t.month ≤ 12 ∧
  1 ≤ t.day ∧ t.day ≤ 31 ∧ t.hour ≤ 23 ∧ t.minute ≤ 59 ∧ t.second ≤ 59

instance (t : DateTime) : Decidable (validDT t) := by
  unfold validDT; infer_instance

/-- Zero-padded fixed-width decimal digits of `n`, most significant first:
the model of `%Y`/`%m`/`%d`/`%H`/`%M`/`%S` rendering. -/
def padDigits : Nat → Nat → List Char
  | 0, _ => []
  | w + 1, n => padDigits w (n / 10) ++ [Nat.digitChar (n % 10)]

/-- Character list of `strftime("%Y%m%d_%H%M%S")`. -/
def timestampChars (t : DateTime) : List Char :=
  padDigits 4 t.year ++ padDigits 2 t.month ++ padDigits 2 t.day ++
    ['_'] ++ padDigits 2 t.hour ++ padDigits 2 t.minute ++ padDigits 2 t.second

/-- Model of `datetime.now().strftime("%Y%m%d_%H%M%S")` (app.py line 131). -/
def strftimeTS (t : DateTime) : String :=
  String.mk (timestampChars t)

/-- Basename of a stored recording as `os.listdir` returns it. -/
def audio_basename (t : DateTime) : String :=
  "audio_" ++ strftimeTS t ++ ".wav"

/-- The filename computed by `save_audio` (app.py lines 131-132):
`f"recordings/audio_{timestamp}.wav"`. -/
def save_audio_filename (t : DateTime) : String :=
  "recordings/" ++ audio_basename t

/-- The base-100 combination of the time fields: two timestamps compare the
same way their keys do. -/
def dtKey (t : DateTime) : Nat :=
  ((((t.year * 100 + t.month) * 100 + t.day) * 100 + t.hour) * 100 +
    t.minute) * 100 + t.second

/-- Calendar-date block `YYYYMMDD` of the key. -/
def ymdPart (t : DateTime) : Nat :=
  (t.year * 100 + t.month) * 100 + t.day

/-- Time-of-day block `HHMMSS` of the key. -/
def hmsPart (t : DateTime) : Nat :=
  (t.hour * 100 + t.minute) * 100 + t.second

/-- The timestamp embedded in a stored filename, recovered by reading off the
decimal digits of the name. -/
def extractKey (s : String) : Nat :=
  (s.data.filter Char.isDigit).foldl (fun acc c => 10 * acc + (c.toNat - 48)) 0

/-- The saved-recordings enumeration (app.py lines 299-300): keep the `.wav`
entries of the directory listing and sort them descending
(`saved_recordings.sort(reverse=True)`). -/
def list_recordings (files : List String) : List String :=
  List.insertionSort strGe (files.filter (fun f => strEndsWith f ".wav"))

/-! ### Recognizers for the analyzer reply

The Stop handler parses the analyzer reply with `analysis_dict =
eval(analysis)` (app.py line 190).  To compare that against the spec's strict
JSON decoding we embed two executable recognizers over the reply text:

* `jsonAccepts`: a strict JSON-document recognizer (objects with
  double-quoted string keys, arrays, double-quoted strings with
  backslash escapes, decimal numbers, `true`/`false`/`null`);
* `pyEvalAccepts`: the *literal fragment* of Python `eval` (dicts with
  arbitrary literal keys, lists, single- or double-quoted strings,
  decimal numbers, `True`/`False`/`None`).  Full `eval` accepts strictly
  more than this fragment — it evaluates arbitrary expressions — so any
  text this fragment accepts, `eval` accepts.

Both recognizers consume leading whitespace, use a fuel argument for
termination, and succeed only when the whole text is consumed. -/

/-- Skip leading ASCII whitespace. -/
def skipWs : List Char → List Char
  | [] => []
  | c :: rest => if isWsChar c then skipWs rest else c :: rest

/-- Consume an expected literal tail (e.g. `rue` after `t`). -/
def expectLit : List Char → List Char → Option (List Char)
  | [], cs => some cs
  | _ :: _, [] => none
  | l :: ls, c :: cs => if c = l then expectLit ls cs else none

/-- Consume a quoted string body up to the closing quote `q`, honoring
backslash escapes; returns the remaining text. -/
def quotedString (q : Char) : List Char → Option (List Char)
  | [] => none
  | c :: rest =>
    if c = q then some rest
    else if c = backslashC then
      match rest with
      | [] => none
      | _ :: rest2 => quotedString q rest2
    else quotedString q rest

/-- Drop a run of leading decimal digits. -/
def skipDigits : List Char → List Char
  | [] => []
  | c :: rest => if c.isDigit then skipDigits rest else c :: rest

/-- Consume a decimal number: optional minus sign, one or more digits,
optional fractional part. -/
def numberLit (cs : List Char) : Option (List Char) :=
  let cs1 := match cs with
    | c :: r => if c = '-' then r else cs
    | [] => cs
  match cs1 with
  | [] => none
  | c :: r =>
    if c.isDigit then
      match skipDigits r with
      | '.' :: r3 =>
        match r3 with
        | [] => none
        | d :: r4 => if d.isDigit then some (skipDigits r4) else none
      | r2 => some r2
    else none

mutual

/-- Consume one JSON value; `fuel` bounds the recursion depth. -/
def jsonValue : Nat → List Char → Option (List Char)
  | 0, _ => none
  | _ + 1, [] => none
  | fuel + 1, c :: rest =>
    if c = '"' then quotedString '"' rest
    else if c = lbrace then
      match skipWs rest with
      | [] => none
      | c2 :: r1 => if c2 = rbrace then some r1 else jsonMembers fuel (c2 :: r1)
    else if c = '[' then
      match skipWs rest with
      | [] => none
      | c2 :: r1 => if c2 = ']' then some r1 else jsonItems fuel (c2 :: r1)
    else if c = 't' then expectLit "rue".data rest
    else if c = 'f' then expectLit "alse".data rest
    else if c = 'n' then expectLit "ull".data rest
    else if c = '-' || c.isDigit then numberLit (c :: rest)
    else none

/-- Consume the members of a nonempty JSON object, starting at the first key
and ending just after the closing brace. -/
def jsonMembers : Nat → List Char → Option (List Char)
  | 0, _ => none
  | _ + 1, [] => none
  | fuel + 1, c :: rest =>
    if c = '"' then
      match quotedString '"' rest with
      | none => none
      | some r1 =>
        match skipWs r1 with
        | ':' :: r2 =>
          match jsonValue fuel (skipWs r2) with
          | none => none
          | some r3 =>
            match skipWs r3 with
            | [] => none
            | c4 :: r4 =>
              if c4 = ',' then jsonMembers fuel (skipWs r4)
              else if c4 = rbrace then some r4
              else none
        | _ => none
    else none

/-- Consume the items of a nonempty JSON array, ending just after `]`. -/
def jsonItems : Nat → List Char → Option (List Char)
  | 0, _ => none
  | fuel + 1, cs =>
    match jsonValue fuel cs with
    | none => none
    | some r =>
      match skipWs r with
      | [] => none
      | c2 :: r2 =>
        if c2 = ',' then jsonItems fuel (skipWs r2)
        else if c2 = ']' then some r2
        else none

end

/-- The reply text is one complete well-formed JSON document. -/
def jsonAccepts (s : String) : Bool :=
  match jsonValue (s.data.length + 1) (skipWs s.data) with
  | some r => (skipWs r).isEmpty
  | none => false

mutual

/-- Consume one Python literal; `fuel` bounds the recursion depth. -/
def pyLit : Nat → List Char → Option (List Char)
  | 0, _ => none
  | _ + 1, [] => none
  | fuel + 1, c :: rest =>
    if c = '"' || c = squote then quotedString c rest
    else if c = lbrace then
      match skipWs rest with
      | [] => none
      | c2 :: r1 => if c2 = rbrace then some r1 else pyDictItems fuel (c2 :: r1)
    else if c = '[' then
      match skipWs rest with
      | [] => none
      | c2 :: r1 => if c2 = ']' then some r1 else pyListItems fuel (c2 :: r1)
    else if c = 'T' then expectLit "rue".data rest
    else if c = 'F' then expectLit "alse".data rest
    else if c = 'N' then expectLit "one".data rest
    else if c = '-' || c.isDigit then numberLit (c :: rest)
    else none

/-- Consume the entries of a nonempty Python dict literal, starting at the
first key and ending just after the closing brace. -/
def pyDictItems : Nat → List Char → Option (List Char)
  | 0, _ => none
  | fuel + 1, cs =>
    match pyLit fuel cs with
    | none => none
    | some r1 =>
      match skipWs r1 with
      | ':' :: r2 =>
        match pyLit fuel (skipWs r2) with
        | none => none
        | some r3 =>
          match skipWs r3 with
          | [] => none
          | c4 :: r4 =>
            if c4 = ',' then pyDictItems fuel (skipWs r4)
            else if c4 = rbrace then some r4
            else none
      | _ => none

/-- Consume the items of a nonempty Python list literal, ending after `]`. -/
def pyListItems : Nat → List Char → Option (List Char)
  | 0, _ => none
  | fuel + 1, cs =>
    match pyLit fuel cs with
    | none => none
    | some r =>
      match skipWs r with
      | [] => none
      | c2 :: r2 =>
        if c2 = ',' then pyListItems fuel (skipWs r2)
        else if c2 = ']' then some r2
        else none

end

/-- The reply text is one complete literal of the modeled fragment of Python
`eval` (so `eval` itself accepts it). -/
def pyEvalAccepts (s : String) : Bool :=
  match pyLit (s.data.length + 1) (skipWs s.data) with
  | some r => (skipWs r).isEmpty
  | none => false

/-- An analyzer reply text that Python `eval` evaluates to a dict but that is
not a well-formed JSON document (`None` is not a JSON token). -/
def analyzerReplyExample : String :=
  String.mk (lbrace ::
    ("\"executive_summary\": \"ok\", \"action_items\": [], " ++
      "\"key_decisions\": [], \"mermaid_diagram\": None").data ++ [rbrace])

/-! ### Analysis data and the dashboard renderer -/

/-- One entry of the `action_items` array of the analyzer reply. -/
structure ActionItem where
  task : String
  assignee : String
  deadline : String
  priority : String
  dependencies : List String
deriving DecidableEq

/-- The parsed analyzer reply as the dashboard consumes it
(`executive_summary`, `action_items`, `key_decisions`, `mermaid_diagram`). -/
structure AnalysisResult where
  executive_summary : String
  action_items : List ActionItem
  key_decisions : List String
  mermaid_diagram : String
deriving DecidableEq

/-- One row of the action-items dataframe (app.py lines 225-232). -/
structure Row where
  task : String
  assignee : String
  deadline : String
  priority : String
  dependencies : String
deriving DecidableEq

/-- The dataframe rows built from the action items, one per item; the
`dependencies` column joins the list with `", "`. -/
def buildRows (items : List ActionItem) : List Row :=
  items.map fun it =>
    { task := it.task
      assignee := it.assignee
      deadline := it.deadline
      priority := it.priority
      dependencies := String.intercalate ", " it.dependencies }

/-- The priority-to-style mapping `color_priority` (app.py lines 237-243):
lower-case the cell value, look it up in a fixed dict, fall back to the empty
style. -/
def color_priority (val : String) : String :=
  if pyLower val = "high" then "background-color: #ffcccc"
  else if pyLower val = "medium" then "background-color: #ffffcc"
  else if pyLower val = "low" then "background-color: #ccffcc"
  else ""

/-- The default style block appended when the diagram text has no `style`
directive (app.py lines 259-262, a triple-quoted literal). -/
def defaultStyles : String :=
  "\n                    style default fill:#f9f,stroke:#333,stroke-width:2px" ++
  "\n                    style default fill:#bbf,stroke:#333,stroke-width:2px" ++
  "\n                "

/-- Diagram normalization (app.py lines 252-262): prepend `graph TD` when the
stripped text does not start with `graph`, then append the default styles when
no `style` substring is present. -/
def normalizeDiagram (s : String) : String :=
  let d := if strStartsWith (pyStrip s) "graph" then s else "graph TD\n" ++ s
  if strContains d "style" then d else d ++ defaultStyles

/-- The hard-coded fallback diagram rendered when the normalized diagram is
rejected by the widget (app.py lines 278-289). -/
def fallback_diagram : String :=
  "\n            graph TD" ++
  "\n                Start[Meeting Start] --> Topics[Key Topics Discussed]" ++
  "\n                Topics --> Decisions" ++ String.singleton lbrace ++
    "Key Decisions" ++ String.singleton rbrace ++
  "\n                Decisions --> Actions([Action Items])" ++
  "\n                Actions --> Team((Team Members))" ++
  "\n                " ++
  "\n                style Start fill:#f9f" ++
  "\n                style Decisions fill:#ff9999" ++
  "\n                style Actions fill:#99ff99" ++
  "\n                style Team fill:#9999ff" ++
  "\n            "

/-- What the dashboard section displays for one analysis (app.py lines
208-290).  `tableShown` records the `if action_items_df:` guard;
`diagramFellBack` records whether the except-branch ran (it also surfaces the
non-fatal `st.error` notice). -/
structure Dashboard where
  summary : String
  decisions : List String
  rows : List Row
  tableShown : Bool
  diagram : String
  diagramFellBack : Bool
deriving DecidableEq

/-- The dashboard renderer.  `renderOk` abstracts the external mermaid widget:
it reports whether `st_mermaid` accepts the normalized diagram text; when it
does not, the except branch substitutes `fallback_diagram` and surfaces a
non-fatal notice.  The summary, decisions and table do not depend on it. -/
def renderDashboard (renderOk : String → Bool) (a : AnalysisResult) :
    Dashboard :=
  let rows := buildRows a.action_items
  let d := normalizeDiagram a.mermaid_diagram
  if renderOk d then
    { summary := a.executive_summary
      decisions := a.key_decisions
      rows := rows
      tableShown := !rows.isEmpty
      diagram := d
      diagramFellBack := false }
  else
    { summary := a.executive_summary
      decisions := a.key_decisions
      rows := rows
      tableShown := !rows.isEmpty
      diagram := fallback_diagram
      diagramFellBack := true }

/-! ### Session state and the button handlers -/

/-- A user-visible Streamlit notice. -/
inductive Notice
  | info (msg : String)
  | success (msg : String)
  | error (msg : String)
deriving DecidableEq

/-- The session-state dictionary (app.py lines 144-154 plus the keys the Stop
handler adds).  Audio samples are rationals; times are rationals
(`time.time()` values). -/
structure SessionState where
  is_recording : Bool
  recording_started : Bool
  start_time : Option ℚ
  elapsed_time : Option ℚ
  recorder : Option (List ℚ)
  last_recording : Option String
  last_transcription : Option String
  last_analysis : Option AnalysisResult

/-- The state after first UI load (app.py lines 144-154): all flags false,
all cached values absent. -/
def initState : SessionState :=
  { is_recording := false
    recording_started := false
    start_time := none
    elapsed_time := none
    recorder := none
    last_recording := none
    last_transcription := none
    last_analysis := none }

/-- The pre-allocated capture buffer of `record_audio_stream` (app.py line
119): `sd.rec(int(44100 * 3600))` allocates one hour of frames at 44100 Hz;
the device fills it in the background, so only its length matters here. -/
def record_audio_stream : List ℚ :=
  List.replicate (44100 * 3600) 0

/-- The notice shown by the Start handler (app.py line 164). -/
def startInfoMsg : String :=
  "🎙️ Recording... Click " ++ String.singleton squote ++ "Stop Recording" ++
    String.singleton squote ++ " when finished."

/-- The Start Recording handler (app.py lines 158-164): guarded by the button
press and `not st.session_state['is_recording']`. -/
def startHandler (pressed : Bool) (now : ℚ) (s : SessionState) :
    SessionState × List Notice :=
  if pressed && !s.is_recording then
    ({ s with
        is_recording := true
        start_time := some now
        recording_started := true
        recorder := some record_audio_stream },
      [Notice.info startInfoMsg])
  else (s, [])

/-- The slice `st.session_state['recorder'][:int(elapsed_time * 44100)]`
(app.py line 174): Python truncates the float product toward zero (here
`elapsed ≥ 0`, so `Int.floor`) and slicing clamps to the list length. -/
def savedBuffer (elapsed : ℚ) (buf : List ℚ) : List ℚ :=
  buf.take (Int.toNat ⌊elapsed * 44100⌋)

/-- External inputs consumed by one run of the Stop handler: the button press,
`time.time()` at stop, `datetime.now()` inside `save_audio`, the transcription
text, and the outcome of `eval(generate_meeting_summary(transcript))` — `ok`
when it evaluates to an analysis dict, `error` with the exception text when it
raises. -/
structure StopInputs where
  pressed : Bool
  now : ℚ
  saveTime : DateTime
  transcript : String
  analysisOutcome : Except String AnalysisResult

/-- Everything one run of the Stop handler does: the next session state, the
notices shown, and the file written by `sf.write` (name and samples), if any. -/
structure StopResult where
  state : SessionState
  notices : List Notice
  written : Option (String × List ℚ)

/-- The Stop Recording handler (app.py lines 167-198).  Guarded by the button
press and `is_recording`; with a live recorder it computes the elapsed time,
truncates and saves the buffer, stores the transcript, updates the analysis
only when `eval` succeeded (the except branch only shows an error notice), and
clears the recorder.  With no recorder it only shows an error notice.
(`start_time` is always set while `is_recording` holds — an invariant proved
below — so the `getD 0` default is never consulted on reachable states.) -/
def stopHandler (inp : StopInputs) (s : SessionState) : StopResult :=
  if inp.pressed && s.is_recording then
    match s.recorder with
    | some buf =>
      let elapsed := inp.now - s.start_time.getD 0
      let recording := savedBuffer elapsed buf
      let audio_file := save_audio_filename inp.saveTime
      let base := { s with
        is_recording := false
        elapsed_time := some elapsed
        last_recording := some audio_file
        last_transcription := some inp.transcript
        recorder := none }
      match inp.analysisOutcome with
      | Except.ok d =>
        { state := { base with last_analysis := some d }
          notices := [Notice.success "Recording saved!",
                      Notice.success "Analysis complete!"]
          written := some (audio_file, recording) }
      | Except.error msg =>
        { state := base
          notices := [Notice.success "Recording saved!",
                      Notice.error ("Error analyzing meeting content: " ++ msg),
                      Notice.success "Analysis complete!"]
          written := some (audio_file, recording) }
    | none =>
      { state := s
        notices := [Notice.error "No recording in progress!"]
        written := none }
  else
    { state := s, notices := [], written := none }

/-- A UI event of one interactive session: a Start click or a Stop click with
its external inputs. -/
inductive Event
  | start (now : ℚ)
  | stop (now : ℚ) (saveTime : DateTime) (transcript : String)
      (outcome : Except String AnalysisResult)

/-- The state transition of one clicked event. -/
def stepEvent (s : SessionState) : Event → SessionState
  | Event.start now => (startHandler true now s).1
  | Event.stop now saveTime transcript outcome =>
    (stopHandler ⟨true, now, saveTime, transcript, outcome⟩ s).state

/-- Run a sequence of clicked events from the initial session state. -/
def runEvents (events : List Event) : SessionState :=
  events.foldl stepEvent initState

/-- The recording flag dictated by the spec's start/stop bracketing: true
after a start event, false after a stop event. -/
def eventFlag : Event → Bool
  | Event.start _ => true
  | Event.stop _ _ _ _ => false

/-! ### Concrete instants, states and inputs used to evaluate the model -/

/-- First of two `datetime.now()` instants inside the same second. -/
def c2t1 : DateTime := ⟨2026, 10, 12, 5, 45, 0, 0⟩

/-- Second instant, half a second later (only microseconds differ). -/
def c2t2 : DateTime := ⟨2026, 10, 12, 5, 45, 0, 500000⟩

/-- A Stop click arriving while nothing is being recorded. -/
def c3Inp : StopInputs :=
  { pressed := true
    now := 10
    saveTime := ⟨2026, 10, 12, 5, 45, 0, 0⟩
    transcript := "hello"
    analysisOutcome := Except.error "boom" }

/-- A short interactive session: start, stop, start again. -/
def c4Events : List Event :=
  [Event.start 1,
   Event.stop 2 ⟨2026, 1, 1, 0, 0, 0, 0⟩ "t" (Except.error "e"),
   Event.start 3]

/-- A session state in the middle of a capture. -/
def c4RecState : SessionState :=
  { initState with
      is_recording := true
      start_time := some 1
      recorder := some record_audio_stream }

/-- A capture that started at `time.time() = 0`. -/
def c5State : SessionState :=
  { initState with
      is_recording := true
      start_time := some 0
      recorder := some record_audio_stream }

/-- A Stop click one second after `c5State` started. -/
def c5Inp : StopInputs :=
  { pressed := true
    now := 1
    saveTime := ⟨2026, 10, 12, 6, 0, 0, 0⟩
    transcript := "hi"
    analysisOutcome := Except.error "x" }

/-- An older stored-recording timestamp. -/
def c6ta : DateTime := ⟨2025, 1, 1, 0, 0, 0, 0⟩

/-- A newer stored-recording timestamp. -/
def c6tb : DateTime := ⟨2026, 10, 12, 5, 45, 0, 0⟩

/-- An analysis whose diagram text lacks the leading declaration. -/
def c7Analysis : AnalysisResult :=
  { executive_summary := "sum"
    action_items := []
    key_decisions := ["d1"]
    mermaid_diagram := "A --> B" }

/-- A rendering widget that rejects every diagram. -/
def c7RenderOk : String → Bool := fun _ => false

/-- A one-item action list with an unrecognized priority value. -/
def c8Items : List ActionItem :=
  [{ task := "t"
     assignee := "a"
     deadline := "d"
     priority := "urgent"
     dependencies := ["x"] }]

/-- The analysis cached by an earlier successful cycle. -/
def c9Analysis : AnalysisResult :=
  { executive_summary := "old"
    action_items := []
    key_decisions := []
    mermaid_diagram := "graph TD" }

/-- A session in mid-capture that still caches the earlier cycle's
transcript and analysis. -/
def c9State : SessionState :=
  { is_recording := true
    recording_started := true
    start_time := some 1
    elapsed_time := none
    recorder := some record_audio_stream
    last_recording := some "recordings/audio_20250101_000000.wav"
    last_transcription := some "old transcript"
    last_analysis := some c9Analysis }

/-- A Stop click whose analyzer reply fails to evaluate. -/
def c9Inp : StopInputs :=
  { pressed := true
    now := 3
    saveTime := ⟨2026, 10, 12, 7, 0, 0, 0⟩
    transcript := "new transcript"
    analysisOutcome := Except.error "invalid syntax" }

/-! ## Lemmas

Everything from here on is a proof about the definitions above. -/

theorem strData_append (s t : String) : (s ++ t).data = s.data ++ t.data := by
  cases s
  cases t
  rfl

theorem lexLtB_irrefl (l : List Char) : lexLtB l l = false := by
  induction l with
  | nil => rfl
  | cons c cs ih => simp [lexLtB, ih]

theorem lexLtB_asymm : ∀ a b : List Char, lexLtB a b = true → lexLtB b a = false
  | [], [], h => by simp [lexLtB] at h
  | [], _ :: _, _ => rfl
  | _ :: _, [], h => by simp [lexLtB] at h
  | x :: xs, y :: ys, h => by
    simp only [lexLtB] at h ⊢
    rcases Nat.lt_trichotomy x.toNat y.toNat with hc | hc | hc
    · rw [if_neg (by omega), if_pos hc]
    · rw [if_neg (by omega), if_neg (by omega)] at h ⊢
      exact lexLtB_asymm xs ys h
    · rw [if_pos hc, if_neg (by omega)] at h
      exact absurd h (by simp)

theorem lexLtB_trans :
    ∀ a b c : List Char,
      lexLtB a b = true → lexLtB b c = true → lexLtB a c = true
  | [], [], _, h1, _ => by simp [lexLtB] at h1
  | [], _ :: _, [], _, h2 => by simp [lexLtB] at h2
  | [], _ :: _, _ :: _, _, _ => rfl
  | _ :: _, [], _, h1, _ => by simp [lexLtB] at h1
  | _ :: _, _ :: _, [], _, h2 => by simp [lexLtB] at h2
  | x :: xs, y :: ys, z :: zs, h1, h2 => by
    simp only [lexLtB] at h1 h2 ⊢
    rcases Nat.lt_trichotomy x.toNat y.toNat with hxy | hxy | hxy
    · rcases Nat.lt_trichotomy y.toNat z.toNat with hyz | hyz | hyz
      · rw [if_pos (by omega)]
      · rw [if_pos (by omega)]
      · rw [if_neg (by omega), if_pos hyz] at h2
        exact absurd h2 (by simp)
    · rw [if_neg (by omega), if_neg (by omega)] at h1
      rcases Nat.lt_trichotomy y.toNat z.toNat with hyz | hyz | hyz
      · rw [if_pos (by omega)]
      · rw [if_neg (by omega), if_neg (by omega)] at h2 ⊢
        exact lexLtB_trans xs ys zs h1 h2
      · rw [if_neg (by omega), if_pos hyz] at h2
        exact absurd h2 (by simp)
    · rw [if_pos hxy, if_neg (by omega)] at h1
      exact absurd h1 (by simp)

theorem lexLtB_total :
    ∀ a b : List Char, lexLtB a b = false → lexLtB b a = true ∨ a = b
  | [], [], _ => Or.inr rfl
  | [], _ :: _, h => by simp [lexLtB] at h
  | _ :: _, [], _ => Or.inl rfl
  | x :: xs, y :: ys, h => by
    simp only [lexLtB] at h ⊢
    rcases Nat.lt_trichotomy x.toNat y.toNat with hc | hc | hc
    · rw [if_pos hc] at h
      exact absurd h (by simp)
    · rw [if_neg (by omega), if_neg (by omega)] at h
      rcases lexLtB_total xs ys h with h' | h'
      · exact Or.inl (by rw [if_neg (by omega), if_neg (by omega)]; exact h')
      · have hxy : x = y := Char.ext (UInt32.ext hc)
        exact Or.inr (by rw [hxy, h'])
    · exact Or.inl (by rw [if_pos hc])

theorem strGe_total (a b : String) : strGe a b ∨ strGe b a := by
  unfold strGe pyStrLt
  cases h : lexLtB a.data b.data
  · exact Or.inl rfl
  · exact Or.inr (lexLtB_asymm a.data b.data h)

theorem strGe_trans (a b c : String) :
    strGe a b → strGe b c → strGe a c := by
  intro hab hbc
  unfold strGe pyStrLt at hab hbc ⊢
  rcases lexLtB_total a.data b.data hab with h1 | h1
  · rcases lexLtB_total b.data c.data hbc with h2 | h2
    · exact lexLtB_asymm c.data a.data
        (lexLtB_trans c.data b.data a.data h2 h1)
    · rw [← h2]; exact hab
  · rw [h1]; exact hbc

theorem lexLtB_append_same :
    ∀ p x y : List Char, lexLtB (p ++ x) (p ++ y) = lexLtB x y
  | [], _, _ => rfl
  | c :: p, x, y => by
    simp only [List.cons_append, lexLtB]
    rw [if_neg (Nat.lt_irrefl _), if_neg (Nat.lt_irrefl _)]
    exact lexLtB_append_same p x y

theorem digitChar_toNat (m : Nat) (h : m < 10) :
    (Nat.digitChar m).toNat = 48 + m := by
  interval_cases m <;> decide

theorem digitChar_isDigit (m : Nat) (h : m < 10) :
    (Nat.digitChar m).isDigit = true := by
  interval_cases m <;> decide

theorem padDigits_append (w1 w2 a b : Nat) (hb : b < 10 ^ w2) :
    padDigits w1 a ++ padDigits w2 b = padDigits (w1 + w2) (a * 10 ^ w2 + b) := by
  induction w2 generalizing b with
  | zero =>
    rw [pow_zero] at hb
    have hb0 : b = 0 := by omega
    subst hb0
    simp [padDigits]
  | succ w ih =>
    have h10 : (10 : Nat) ^ (w + 1) = 10 ^ w * 10 := pow_succ 10 w
    have hd : b / 10 < 10 ^ w := by omega
    have e1 : padDigits (w + 1) b
        = padDigits w (b / 10) ++ [Nat.digitChar (b % 10)] := rfl
    have e2 : padDigits (w1 + (w + 1)) (a * 10 ^ (w + 1) + b)
        = padDigits (w1 + w) ((a * 10 ^ (w + 1) + b) / 10)
          ++ [Nat.digitChar ((a * 10 ^ (w + 1) + b) % 10)] := rfl
    have hM : a * 10 ^ (w + 1) = a * 10 ^ w * 10 := by ring
    have hdiv : (a * 10 ^ (w + 1) + b) / 10 = a * 10 ^ w + b / 10 := by
      rw [hM]; omega
    have hmod : (a * 10 ^ (w + 1) + b) % 10 = b % 10 := by
      rw [hM]; omega
    calc padDigits w1 a ++ padDigits (w + 1) b
        = (padDigits w1 a ++ padDigits w (b / 10))
            ++ [Nat.digitChar (b % 10)] := by
          rw [e1, List.append_assoc]
      _ = padDigits (w1 + w) (a * 10 ^ w + b / 10)
            ++ [Nat.digitChar (b % 10)] := by rw [ih _ hd]
      _ = padDigits (w1 + (w + 1)) (a * 10 ^ (w + 1) + b) := by
          rw [e2, hdiv, hmod]

theorem lexLtB_padDigits (w : Nat) :
    ∀ (n m : Nat) (r r' : List Char), n < 10 ^ w → m < 10 ^ w →
      lexLtB (padDigits w n ++ r) (padDigits w m ++ r') =
        if n < m then true else if m < n then false else lexLtB r r' := by
  induction w with
  | zero =>
    intro n m r r' hn hm
    rw [pow_zero] at hn hm
    have hn0 : n = 0 := by omega
    have hm0 : m = 0 := by omega
    subst hn0; subst hm0
    simp [padDigits]
  | succ w ih =>
    intro n m r r' hn hm
    have h10 : (10 : Nat) ^ (w + 1) = 10 ^ w * 10 := pow_succ 10 w
    have hn' : n / 10 < 10 ^ w := by omega
    have hm' : m / 10 < 10 ^ w := by omega
    have e1 : padDigits (w + 1) n ++ r
        = padDigits w (n / 10) ++ (Nat.digitChar (n % 10) :: r) := by
      show (padDigits w (n / 10) ++ [Nat.digitChar (n % 10)]) ++ r = _
      rw [List.append_assoc]
      rfl
    have e2 : padDigits (w + 1) m ++ r'
        = padDigits w (m / 10) ++ (Nat.digitChar (m % 10) :: r') := by
      show (padDigits w (m / 10) ++ [Nat.digitChar (m % 10)]) ++ r' = _
      rw [List.append_assoc]
      rfl
    rw [e1, e2, ih _ _ _ _ hn' hm']
    have hdn : (Nat.digitChar (n % 10)).toNat = 48 + n % 10 :=
      digitChar_toNat _ (Nat.mod_lt _ (by omega))
    have hdm : (Nat.digitChar (m % 10)).toNat = 48 + m % 10 :=
      digitChar_toNat _ (Nat.mod_lt _ (by omega))
    rcases Nat.lt_trichotomy (n / 10) (m / 10) with h | h | h
    · rw [if_pos h, if_pos (by omega)]
    · rw [if_neg (by omega), if_neg (by omega)]
      simp only [lexLtB, hdn, hdm]
      rcases Nat.lt_trichotomy (n % 10) (m % 10) with h2 | h2 | h2
      · rw [if_pos (by omega), if_pos (by omega)]
      · rw [if_neg (by omega), if_neg (by omega), if_neg (by omega),
          if_neg (by omega)]
      · rw [if_neg (by omega), if_pos (by omega), if_neg (by omega),
          if_pos (by omega)]
    · rw [if_neg (by omega), if_pos h, if_neg (by omega), if_pos (by omega)]

theorem foldl_padDigits (w : Nat) :
    ∀ n a : Nat, n < 10 ^ w →
      (padDigits w n).foldl (fun acc c => 10 * acc + (c.toNat - 48)) a
        = a * 10 ^ w + n := by
  induction w with
  | zero =>
    intro n a hn
    rw [pow_zero] at hn
    have hn0 : n = 0 := by omega
    subst hn0
    simp [padDigits]
  | succ w ih =>
    intro n a hn
    have h10 : (10 : Nat) ^ (w + 1) = 10 ^ w * 10 := pow_succ 10 w
    have hn' : n / 10 < 10 ^ w := by omega
    show (padDigits w (n / 10) ++ [Nat.digitChar (n % 10)]).foldl
        (fun acc c => 10 * acc + (c.toNat - 48)) a = _
    rw [List.foldl_append, ih _ _ hn']
    simp only [List.foldl]
    rw [digitChar_toNat _ (Nat.mod_lt _ (by omega))]
    have h48 : 48 + n % 10 - 48 = n % 10 := by omega
    rw [h48]
    have hM : a * 10 ^ (w + 1) = a * 10 ^ w * 10 := by ring
    rw [hM]
    omega

theorem padDigits_filter (w : Nat) :
    ∀ n : Nat, (padDigits w n).filter Char.isDigit = padDigits w n := by
  induction w with
  | zero => intro n; rfl
  | succ w ih =>
    intro n
    show List.filter Char.isDigit
        (padDigits w (n / 10) ++ [Nat.digitChar (n % 10)]) = _
    rw [List.filter_append, ih]
    simp only [List.filter, digitChar_isDigit _ (Nat.mod_lt _ (by omega))]
    rfl

theorem pad_merge2 (w a b : Nat) (hb : b < 100) :
    padDigits w a ++ padDigits 2 b = padDigits (w + 2) (a * 100 + b) := by
  have hb' : b < 10 ^ 2 := by norm_num; omega
  rw [padDigits_append w 2 a b hb']
  norm_num

theorem pad_merge2_assoc (w a b : Nat) (hb : b < 100) (r : List Char) :
    padDigits w a ++ (padDigits 2 b ++ r)
      = padDigits (w + 2) (a * 100 + b) ++ r := by
  rw [← List.append_assoc, pad_merge2 w a b hb]

theorem timestampChars_append (t : DateTime) (h : validDT t) (r : List Char) :
    timestampChars t ++ r
      = padDigits 8 (ymdPart t)
        ++ ('_' :: (padDigits 6 (hmsPart t) ++ r)) := by
  obtain ⟨h1, h2, h3, h4, h5, h6, h7, h8, h9⟩ := h
  unfold timestampChars ymdPart hmsPart
  simp only [List.append_assoc]
  rw [pad_merge2_assoc 4 t.year t.month (by omega),
    pad_merge2_assoc 6 _ t.day (by omega),
    pad_merge2_assoc 2 t.hour t.minute (by omega),
    pad_merge2_assoc 4 _ t.second (by omega)]
  rfl

theorem basename_data (t : DateTime) :
    (audio_basename t).data
      = "audio_".data ++ (timestampChars t ++ ".wav".data) := by
  unfold audio_basename strftimeTS
  rw [strData_append, strData_append]
  rfl

theorem dtKey_eq (t : DateTime) :
    dtKey t = ymdPart t * 1000000 + hmsPart t := by
  unfold dtKey ymdPart hmsPart
  ring

theorem ymdPart_lt (t : DateTime) (h : validDT t) : ymdPart t < 10 ^ 8 := by
  have h8 : (10 : Nat) ^ 8 = 100000000 := by norm_num
  obtain ⟨h1, h2, h3, h4, h5, h6, h7, h8', h9⟩ := h
  unfold ymdPart
  omega

theorem hmsPart_lt (t : DateTime) (h : validDT t) : hmsPart t < 10 ^ 6 := by
  have h6 : (10 : Nat) ^ 6 = 1000000 := by norm_num
  obtain ⟨h1, h2, h3, h4, h5, h6', h7, h8, h9⟩ := h
  unfold hmsPart
  omega

theorem lexLtB_cons_same (c : Char) (x y : List Char) :
    lexLtB (c :: x) (c :: y) = lexLtB x y := by
  simp only [lexLtB]
  rw [if_neg (Nat.lt_irrefl _), if_neg (Nat.lt_irrefl _)]

theorem pyStrLt_basename (t1 t2 : DateTime)
    (h1 : validDT t1) (h2 : validDT t2) :
    pyStrLt (audio_basename t1) (audio_basename t2)
      = decide (dtKey t1 < dtKey t2) := by
  have e1 := dtKey_eq t1
  have e2 := dtKey_eq t2
  have hy1 := ymdPart_lt t1 h1
  have hy2 := ymdPart_lt t2 h2
  have hh1 := hmsPart_lt t1 h1
  have hh2 := hmsPart_lt t2 h2
  have hh1' : hmsPart t1 < 1000000 := by
    have : (10 : Nat) ^ 6 = 1000000 := by norm_num
    omega
  have hh2' : hmsPart t2 < 1000000 := by
    have : (10 : Nat) ^ 6 = 1000000 := by norm_num
    omega
  unfold pyStrLt
  rw [basename_data, basename_data,
    timestampChars_append t1 h1, timestampChars_append t2 h2,
    lexLtB_append_same,
    lexLtB_padDigits 8 _ _ _ _ hy1 hy2]
  rcases Nat.lt_trichotomy (ymdPart t1) (ymdPart t2) with h | h | h
  · rw [if_pos h]
    exact (decide_eq_true (by omega)).symm
  · rw [if_neg (by omega), if_neg (by omega)]
    rw [lexLtB_cons_same, lexLtB_padDigits 6 _ _ _ _ hh1 hh2]
    rcases Nat.lt_trichotomy (hmsPart t1) (hmsPart t2) with g | g | g
    · rw [if_pos g]
      exact (decide_eq_true (by omega)).symm
    · rw [if_neg (by omega), if_neg (by omega), lexLtB_irrefl]
      exact (decide_eq_false (by omega)).symm
    · rw [if_neg (by omega), if_pos g]
      exact (decide_eq_false (by omega)).symm
  · rw [if_neg (by omega), if_pos h]
    exact (decide_eq_false (by omega)).symm

theorem extractKey_basename (t : DateTime) (h : validDT t) :
    extractKey (audio_basename t) = dtKey t := by
  have hh := hmsPart_lt t h
  have hy := ymdPart_lt t h
  unfold extractKey
  rw [basename_data, timestampChars_append t h]
  rw [List.filter_append]
  have ha : "audio_".data.filter Char.isDigit = [] := by decide
  rw [ha, List.nil_append, List.filter_append, padDigits_filter]
  have hu : List.filter Char.isDigit
      ('_' :: (padDigits 6 (hmsPart t) ++ ".wav".data))
      = padDigits 6 (hmsPart t) := by
    rw [List.filter_cons_of_neg (by decide)]
    rw [List.filter_append, padDigits_filter]
    have hw : ".wav".data.filter Char.isDigit = [] := by decide
    rw [hw, List.append_nil]
  rw [hu, padDigits_append 8 6 _ _ hh]
  have hcomb : ymdPart t * 10 ^ 6 + hmsPart t < 10 ^ 14 := by
    have c6 : (10 : Nat) ^ 6 = 1000000 := by norm_num
    have c8 : (10 : Nat) ^ 8 = 100000000 := by norm_num
    have c14 : (10 : Nat) ^ 14 = 100000000000000 := by norm_num
    rw [c6, c14]
    rw [c8] at hy
    have c6' : (10 : Nat) ^ 6 = 1000000 := by norm_num
    rw [c6'] at hh
    omega
  rw [show (8 : Nat) + 6 = 14 from rfl, foldl_padDigits 14 _ 0 hcomb]
  rw [dtKey_eq]
  have c6 : (10 : Nat) ^ 6 = 1000000 := by norm_num
  rw [c6]
  omega

theorem stepEvent_flag (s : SessionState) (e : Event)
    (h : s.is_recording = true → s.recorder.isSome = true) :
    (stepEvent s e).is_recording = eventFlag e
    ∧ ((stepEvent s e).is_recording = true →
        (stepEvent s e).recorder.isSome = true) := by
  cases e with
  | start now =>
    cases hrec : s.is_recording with
    | true =>
      have hid : stepEvent s (Event.start now) = s := by
        simp [stepEvent, startHandler, hrec]
      rw [hid]
      exact ⟨hrec, h⟩
    | false =>
      constructor
      · simp [stepEvent, startHandler, hrec, eventFlag]
      · simp [stepEvent, startHandler, hrec]
  | stop now ts tr out =>
    cases hrec : s.is_recording with
    | true =>
      have hrs : s.recorder.isSome = true := h hrec
      obtain ⟨buf, hbuf⟩ := Option.isSome_iff_exists.mp hrs
      cases out with
      | ok d =>
        constructor
        · simp [stepEvent, stopHandler, hrec, hbuf, eventFlag]
        · simp [stepEvent, stopHandler, hrec, hbuf]
      | error m =>
        constructor
        · simp [stepEvent, stopHandler, hrec, hbuf, eventFlag]
        · simp [stepEvent, stopHandler, hrec, hbuf]
    | false =>
      have hid : stepEvent s (Event.stop now ts tr out) = s := by
        simp [stepEvent, stopHandler, hrec]
      rw [hid]
      constructor
      · simpa [eventFlag] using hrec
      · exact h

theorem runEvents_aux (events : List Event) :
    ∀ s : SessionState, (s.is_recording = true → s.recorder.isSome = true) →
      ((events.foldl stepEvent s).is_recording
          = events.foldl (fun _ e => eventFlag e) s.is_recording
        ∧ ((events.foldl stepEvent s).is_recording = true →
            (events.foldl stepEvent s).recorder.isSome = true)) := by
  induction events with
  | nil => intro s h; exact ⟨rfl, h⟩
  | cons e es ih =>
    intro s h
    obtain ⟨hflag, hinv⟩ := stepEvent_flag s e h
    have hrec := ih (stepEvent s e) hinv
    simp only [List.foldl_cons]
    rw [hflag] at hrec
    exact hrec

theorem basename_eq_of_key (t1 t2 : DateTime)
    (h1 : validDT t1) (h2 : validDT t2) (hk : dtKey t1 = dtKey t2) :
    audio_basename t1 = audio_basename t2 := by
  have e1 := dtKey_eq t1
  have e2 := dtKey_eq t2
  have hh1 := hmsPart_lt t1 h1
  have hh2 := hmsPart_lt t2 h2
  have c6 : (10 : Nat) ^ 6 = 1000000 := by norm_num
  rw [c6] at hh1 hh2
  have hy : ymdPart t1 = ymdPart t2 := by omega
  have hh : hmsPart t1 = hmsPart t2 := by omega
  have a1 := timestampChars_append t1 h1 []
  have a2 := timestampChars_append t2 h2 []
  rw [List.append_nil] at a1 a2
  have ht : timestampChars t1 = timestampChars t2 := by
    rw [a1, a2, hy, hh]
  unfold audio_basename strftimeTS
  rw [ht]

/-! ## Claim theorems -/

/-- C1: the source's parsing step is Python `eval`, not a strict JSON
decoder: the concrete analyzer reply `analyzerReplyExample` is accepted by
the literal fragment of `eval` (so `eval` parses it without raising, and no
recoverable format failure is ever surfaced) although it is not a well-formed
JSON document, so a strict JSON parse of it fails. -/
theorem C1_eval_accepts_non_json :
    pyEvalAccepts analyzerReplyExample = true
    ∧ jsonAccepts analyzerReplyExample = false :=
  ⟨by decide, by decide⟩

/-- C2: two `save_audio` calls inside the same wall-clock second (the two
instants differ only in microseconds) produce the identical filename, so the
second write silently overwrites the first recording. -/
theorem C2_same_second_collision :
    save_audio_filename c2t1 = save_audio_filename c2t2 ∧ c2t1 ≠ c2t2 :=
  ⟨rfl, by decide⟩

/-- C3 (amended): a Stop click while `is_recording` is false is a complete
no-op — the session state is unchanged, no file is written, and no notice at
all is emitted (in particular no "nothing in progress" notice). -/
theorem C3_stop_without_recording_noop (inp : StopInputs) (s : SessionState)
    (h : s.is_recording = false) :
    stopHandler inp s = { state := s, notices := [], written := none } := by
  unfold stopHandler
  rw [h]
  simp

/-- C3 witness: the no-op at a concrete Stop click on the initial state. -/
theorem C3_witness :
    stopHandler c3Inp initState
      = { state := initState, notices := [], written := none } :=
  C3_stop_without_recording_noop c3Inp initState rfl

/-- C3 counterexample to the claim as stated: at a concrete Stop click on
the initial (not-recording) state the handler emits an empty notice list, so
no user-visible "nothing in progress" notice is produced. -/
theorem C3_counterexample :
    (stopHandler c3Inp initState).notices = []
    ∧ initState.is_recording = false :=
  ⟨rfl, rfl⟩

/-- C4: over any sequence of clicked events from the initial state,
`is_recording` is true exactly when the last event was a Start (true strictly
between a Start and the next Stop, false otherwise), and a Start click while
already recording leaves the session state unchanged and emits nothing, so
capture sessions never overlap. -/
theorem C4_recording_flag_invariant :
    (∀ events : List Event,
      (runEvents events).is_recording
        = events.foldl (fun _ e => eventFlag e) false)
    ∧ ∀ (now : ℚ) (s : SessionState), s.is_recording = true →
        startHandler true now s = (s, []) := by
  constructor
  · intro events
    have h := runEvents_aux events initState (by intro hx; simp [initState] at hx)
    have h0 : initState.is_recording = false := rfl
    rw [runEvents]
    rw [h0] at h
    exact h.1
  · intro now s h
    simp [startHandler, h]

/-- C4 witness: the flag characterization on a concrete session
(start, stop, start) and the start-while-recording no-op on a concrete
recording state. -/
theorem C4_witness :
    ((runEvents c4Events).is_recording
        = c4Events.foldl (fun _ e => eventFlag e) false)
    ∧ startHandler true 5 c4RecState = (c4RecState, []) :=
  ⟨C4_recording_flag_invariant.1 c4Events,
    C4_recording_flag_invariant.2 5 c4RecState rfl⟩

/-- C5: for a Stop click ending a capture of elapsed duration `d ≤ 3600`
seconds, the buffer handed to `sf.write` is exactly a prefix of the
pre-allocated one-hour buffer, and its length differs from `d * 44100`
samples by at most one sample frame. -/
theorem C5_saved_buffer_is_elapsed_prefix (inp : StopInputs)
    (s : SessionState) (buf : List ℚ) (t0 d : ℚ)
    (hp : inp.pressed = true) (hr : s.is_recording = true)
    (hb : s.recorder = some buf) (ht : s.start_time = some t0)
    (hlen : buf.length = 44100 * 3600)
    (hd : d = inp.now - t0) (h0 : 0 ≤ d) (h1 : d ≤ 3600) :
    (stopHandler inp s).written
        = some (save_audio_filename inp.saveTime, savedBuffer d buf)
    ∧ savedBuffer d buf <+: buf
    ∧ |((savedBuffer d buf).length : ℚ) - d * 44100| ≤ 1 := by
  have hn0 : (0 : ℚ) ≤ d * 44100 := mul_nonneg h0 (by norm_num)
  have hfl : (0 : ℤ) ≤ ⌊d * 44100⌋ := Int.le_floor.mpr (by exact_mod_cast hn0)
  have hle : ⌊d * 44100⌋ ≤ (158760000 : ℤ) := by
    have hb1 : d * 44100 ≤ (158760000 : ℚ) := by
      have := mul_le_mul_of_nonneg_right h1 (show (0:ℚ) ≤ 44100 by norm_num)
      linarith
    calc ⌊d * 44100⌋ ≤ ⌊(158760000 : ℚ)⌋ := Int.floor_le_floor hb1
      _ = 158760000 := by norm_num
  have hnlen : Int.toNat ⌊d * 44100⌋ ≤ buf.length := by
    rw [hlen]; omega
  refine ⟨?_, ⟨buf.drop _, List.take_append_drop _ _⟩, ?_⟩
  · cases hout : inp.analysisOutcome with
    | ok dd =>
      unfold stopHandler
      rw [hp, hr, hb, ht, hout, hd]
      simp
    | error mm =>
      unfold stopHandler
      rw [hp, hr, hb, ht, hout, hd]
      simp
  · have hlen2 : (savedBuffer d buf).length = Int.toNat ⌊d * 44100⌋ := by
      unfold savedBuffer
      rw [List.length_take]
      omega
    rw [hlen2]
    rw [show ((Int.toNat ⌊d * 44100⌋ : ℕ) : ℚ) = ((⌊d * 44100⌋ : ℤ) : ℚ) from
      by exact_mod_cast congrArg Int.cast (Int.toNat_of_nonneg hfl)]
    rw [abs_le]
    constructor
    · linarith [Int.sub_one_lt_floor (d * 44100)]
    · linarith [Int.floor_le (d * 44100)]

/-- C5 witness: a concrete one-second capture of the pre-allocated buffer. -/
theorem C5_witness :
    (stopHandler c5Inp c5State).written
        = some (save_audio_filename c5Inp.saveTime,
            savedBuffer 1 record_audio_stream)
    ∧ savedBuffer 1 record_audio_stream <+: record_audio_stream
    ∧ |((savedBuffer 1 record_audio_stream).length : ℚ) - 1 * 44100| ≤ 1 :=
  C5_saved_buffer_is_elapsed_prefix c5Inp c5State record_audio_stream 0 1
    rfl rfl rfl rfl (List.length_replicate _ _) (by simp [c5Inp])
    (by decide) (by decide)

/-- C6: for stored recordings named from distinct valid timestamps, the
saved-recordings enumeration returns all of them (a permutation of the
input) ordered strictly newest-first by the timestamp embedded in each
filename. -/
theorem C6_list_recordings_newest_first (ts : List DateTime)
    (hv : ∀ t ∈ ts, validDT t) (hk : (ts.map dtKey).Nodup) :
    (list_recordings (ts.map audio_basename)).Perm (ts.map audio_basename)
    ∧ (list_recordings (ts.map audio_basename)).Pairwise
        (fun a b => extractKey b < extractKey a) := by
  have hfilter : (ts.map audio_basename).filter
      (fun f => strEndsWith f ".wav") = ts.map audio_basename := by
    rw [List.filter_eq_self]
    intro a ha
    obtain ⟨t, ht, rfl⟩ := List.mem_map.mp ha
    unfold strEndsWith
    apply decide_eq_true
    unfold audio_basename
    rw [strData_append]
    exact List.suffix_append _ _
  have hperm : (list_recordings (ts.map audio_basename)).Perm
      (ts.map audio_basename) := by
    unfold list_recordings
    rw [hfilter]
    exact List.perm_insertionSort strGe _
  refine ⟨hperm, ?_⟩
  have hsorted : (list_recordings (ts.map audio_basename)).Pairwise strGe := by
    unfold list_recordings
    rw [hfilter]
    haveI : IsTotal String strGe := ⟨strGe_total⟩
    haveI : IsTrans String strGe := ⟨strGe_trans⟩
    exact List.sorted_insertionSort strGe _
  have hnodup_files : (ts.map audio_basename).Nodup := by
    have hmapeq : ts.map dtKey = (ts.map audio_basename).map extractKey := by
      rw [List.map_map]
      exact List.map_congr_left fun t ht => (extractKey_basename t (hv t ht)).symm
    rw [hmapeq] at hk
    exact hk.of_map _
  have hnodup : (list_recordings (ts.map audio_basename)).Nodup :=
    hperm.symm.nodup hnodup_files
  have hpair : (list_recordings (ts.map audio_basename)).Pairwise
      (fun a b => strGe a b ∧ a ≠ b) := hsorted.and hnodup
  refine hpair.imp_of_mem ?_
  intro a b ha hb hab
  have ha' : a ∈ ts.map audio_basename := hperm.mem_iff.mp ha
  have hb' : b ∈ ts.map audio_basename := hperm.mem_iff.mp hb
  obtain ⟨t1, ht1, rfl⟩ := List.mem_map.mp ha'
  obtain ⟨t2, ht2, rfl⟩ := List.mem_map.mp hb'
  obtain ⟨hge, hne⟩ := hab
  have hmono := pyStrLt_basename t1 t2 (hv t1 ht1) (hv t2 ht2)
  have hdec : decide (dtKey t1 < dtKey t2) = false := by
    rw [← hmono]
    exact hge
  have hnotlt : ¬ dtKey t1 < dtKey t2 := of_decide_eq_false hdec
  have hkne : dtKey t1 ≠ dtKey t2 := by
    intro he
    exact hne (basename_eq_of_key t1 t2 (hv t1 ht1) (hv t2 ht2) he)
  rw [extractKey_basename t1 (hv t1 ht1), extractKey_basename t2 (hv t2 ht2)]
  omega

/-- C6 witness: the enumeration on two concrete stored recordings. -/
theorem C6_witness :
    (list_recordings ([c6ta, c6tb].map audio_basename)).Perm
        ([c6ta, c6tb].map audio_basename)
    ∧ (list_recordings ([c6ta, c6tb].map audio_basename)).Pairwise
        (fun a b => extractKey b < extractKey a) :=
  C6_list_recordings_newest_first [c6ta, c6tb] (by decide) (by decide)

theorem strStartsWith_append_left (p s : String) :
    strStartsWith (p ++ s) p = true := by
  unfold strStartsWith
  apply decide_eq_true
  rw [strData_append]
  exact List.prefix_append _ _

theorem strStartsWith_append_left2 (p s t : String) :
    strStartsWith (p ++ s ++ t) p = true := by
  unfold strStartsWith
  apply decide_eq_true
  rw [strData_append, strData_append]
  exact ⟨s.data ++ t.data, by simp⟩

/-- C7: when the analysis diagram text does not begin (after stripping) with
the `graph` declaration, the renderer prepends `graph TD`, and appends the
default style block when no `style` substring is present; when the widget
rejects the normalized diagram, the fixed fallback diagram is shown with the
non-fatal notice, and the summary, decisions list and action-items rows are
the same no matter what the widget does. -/
theorem C7_diagram_normalization_and_fallback (renderOk : String → Bool)
    (a : AnalysisResult)
    (hg : strStartsWith (pyStrip a.mermaid_diagram) "graph" = false) :
    strStartsWith (normalizeDiagram a.mermaid_diagram) "graph TD\n" = true
    ∧ (strContains ("graph TD\n" ++ a.mermaid_diagram) "style" = false →
        normalizeDiagram a.mermaid_diagram
          = "graph TD\n" ++ a.mermaid_diagram ++ defaultStyles)
    ∧ (renderOk (normalizeDiagram a.mermaid_diagram) = false →
        (renderDashboard renderOk a).diagram = fallback_diagram
        ∧ (renderDashboard renderOk a).diagramFellBack = true)
    ∧ (renderDashboard renderOk a).summary = a.executive_summary
    ∧ (renderDashboard renderOk a).decisions = a.key_decisions
    ∧ (renderDashboard renderOk a).rows = buildRows a.action_items := by
  refine ⟨?_, ?_, ?_, ?_, ?_, ?_⟩
  · by_cases hc : strContains ("graph TD\n" ++ a.mermaid_diagram) "style" = true
    · have hn : normalizeDiagram a.mermaid_diagram
          = "graph TD\n" ++ a.mermaid_diagram := by
        unfold normalizeDiagram
        rw [hg]
        simp [hc]
      rw [hn]
      exact strStartsWith_append_left _ _
    · have hn : normalizeDiagram a.mermaid_diagram
          = "graph TD\n" ++ a.mermaid_diagram ++ defaultStyles := by
        unfold normalizeDiagram
        rw [hg]
        simp [hc]
      rw [hn]
      exact strStartsWith_append_left2 _ _ _
  · intro hcf
    unfold normalizeDiagram
    rw [hg]
    simp [hcf]
  · intro hro
    constructor <;> simp [renderDashboard, hro]
  · by_cases h : renderOk (normalizeDiagram a.mermaid_diagram) = true <;>
      simp [renderDashboard, h]
  · by_cases h : renderOk (normalizeDiagram a.mermaid_diagram) = true <;>
      simp [renderDashboard, h]
  · by_cases h : renderOk (normalizeDiagram a.mermaid_diagram) = true <;>
      simp [renderDashboard, h]

/-- C7 witness: a concrete analysis whose diagram lacks the declaration,
handed to a widget that rejects every diagram. -/
theorem C7_witness :
    strStartsWith (normalizeDiagram c7Analysis.mermaid_diagram)
        "graph TD\n" = true
    ∧ (strContains ("graph TD\n" ++ c7Analysis.mermaid_diagram) "style"
          = false →
        normalizeDiagram c7Analysis.mermaid_diagram
          = "graph TD\n" ++ c7Analysis.mermaid_diagram ++ defaultStyles)
    ∧ (c7RenderOk (normalizeDiagram c7Analysis.mermaid_diagram) = false →
        (renderDashboard c7RenderOk c7Analysis).diagram = fallback_diagram
        ∧ (renderDashboard c7RenderOk c7Analysis).diagramFellBack = true)
    ∧ (renderDashboard c7RenderOk c7Analysis).summary
        = c7Analysis.executive_summary
    ∧ (renderDashboard c7RenderOk c7Analysis).decisions
        = c7Analysis.key_decisions
    ∧ (renderDashboard c7RenderOk c7Analysis).rows
        = buildRows c7Analysis.action_items :=
  C7_diagram_normalization_and_fallback c7RenderOk c7Analysis (by decide)

/-- C8 (amended): the action-items table has exactly one row per input item;
`color_priority` maps the values high, medium and low to the three fixed
colors, and every value whose lowercasing is not one of these gets the empty
(no-highlight) style without any error. -/
theorem C8_rows_and_priority_colors (items : List ActionItem) (s : String)
    (h : pyLower s ≠ "high" ∧ pyLower s ≠ "medium" ∧ pyLower s ≠ "low") :
    (buildRows items).length = items.length
    ∧ color_priority "high" = "background-color: #ffcccc"
    ∧ color_priority "medium" = "background-color: #ffffcc"
    ∧ color_priority "low" = "background-color: #ccffcc"
    ∧ color_priority s = "" := by
  obtain ⟨h1, h2, h3⟩ := h
  refine ⟨?_, by decide, by decide, by decide, ?_⟩
  · unfold buildRows
    rw [List.length_map]
  · unfold color_priority
    rw [if_neg h1, if_neg h2, if_neg h3]

/-- C8 witness: a concrete one-item list with the unrecognized priority
value `urgent`. -/
theorem C8_witness :
    (buildRows c8Items).length = c8Items.length
    ∧ color_priority "high" = "background-color: #ffcccc"
    ∧ color_priority "medium" = "background-color: #ffffcc"
    ∧ color_priority "low" = "background-color: #ccffcc"
    ∧ color_priority "urgent" = "" :=
  C8_rows_and_priority_colors c8Items "urgent" (by decide)

/-- C8 counterexample to the claim as stated: the priority value `HIGH` is
none of the three strings high, medium, low, yet the highlight step returns
the high color for it (the lookup is case-insensitive), not the empty
style. -/
theorem C8_counterexample :
    color_priority "HIGH" = "background-color: #ffcccc"
    ∧ "HIGH" ≠ "high" ∧ "HIGH" ≠ "medium" ∧ "HIGH" ≠ "low" := by
  refine ⟨by decide, by decide, by decide, by decide⟩

/-- C9 (amended): a cycle whose analyzer reply fails to evaluate stores the
new transcript in the session state but leaves `last_analysis` exactly as it
was — the analysis cached by an earlier cycle remains visible. -/
theorem C9_failed_parse_keeps_stale_analysis (inp : StopInputs)
    (s : SessionState) (buf : List ℚ) (msg : String)
    (hp : inp.pressed = true) (hr : s.is_recording = true)
    (hb : s.recorder = some buf)
    (he : inp.analysisOutcome = Except.error msg) :
    (stopHandler inp s).state.last_transcription = some inp.transcript
    ∧ (stopHandler inp s).state.last_analysis = s.last_analysis := by
  unfold stopHandler
  rw [hp, hr, hb, he]
  simp

/-- C9 witness: the concrete failed cycle on a session holding an earlier
analysis. -/
theorem C9_witness :
    (stopHandler c9Inp c9State).state.last_transcription
        = some c9Inp.transcript
    ∧ (stopHandler c9Inp c9State).state.last_analysis
        = c9State.last_analysis :=
  C9_failed_parse_keeps_stale_analysis c9Inp c9State record_audio_stream
    "invalid syntax" rfl rfl rfl rfl

/-- C9 counterexample to the claim as stated: after the concrete failed
cycle the session still holds the earlier cycle's analysis (it is not
cleared), alongside the new transcript. -/
theorem C9_counterexample :
    c9State.last_analysis = some c9Analysis
    ∧ c9Inp.analysisOutcome = Except.error "invalid syntax"
    ∧ (stopHandler c9Inp c9State).state.last_analysis = some c9Analysis
    ∧ (stopHandler c9Inp c9State).state.last_transcription
        = some "new transcript" :=
  ⟨rfl, rfl, rfl, rfl⟩

/-- C10: the truncation at stop time is total — for any nonnegative elapsed
duration the slice length is the clamped minimum of `int(elapsed * 44100)`
and the pre-allocated length, never exceeds one hour of samples, and when
the requested prefix exceeds the buffer the whole buffer is returned. -/
theorem C10_truncation_total_and_capped (d : ℚ) (buf : List ℚ) (h0 : 0 ≤ d)
    (hlen : buf.length = 44100 * 3600) :
    (savedBuffer d buf).length
        = min (Int.toNat ⌊d * 44100⌋) (44100 * 3600)
    ∧ (savedBuffer d buf).length ≤ 44100 * 3600
    ∧ (44100 * 3600 ≤ Int.toNat ⌊d * 44100⌋ → savedBuffer d buf = buf) := by
  refine ⟨?_, ?_, ?_⟩
  · unfold savedBuffer
    rw [List.length_take, hlen]
  · unfold savedBuffer
    rw [List.length_take, hlen]
    omega
  · intro h
    unfold savedBuffer
    apply List.take_of_length_le
    omega

/-- C10 witness: a 4000-second elapsed duration (beyond the one-hour
maximum) on the pre-allocated buffer. -/
theorem C10_witness :
    (savedBuffer 4000 record_audio_stream).length
        = min (Int.toNat ⌊(4000 : ℚ) * 44100⌋) (44100 * 3600)
    ∧ (savedBuffer 4000 record_audio_stream).length ≤ 44100 * 3600
    ∧ (44100 * 3600 ≤ Int.toNat ⌊(4000 : ℚ) * 44100⌋ →
        savedBuffer 4000 record_audio_stream = record_audio_stream) :=
  C10_truncation_total_and_capped 4000 record_audio_stream (by decide)
    (List.length_replicate _ _)
